import Mathlib

/-!
Verification of the duel-ladder vocabulary quiz bot.

This file gives a shallow embedding of the core logic of the repository
(`duel_ladder_bot`): the scoring function (`helpers.py`), the matchmaking
loop body and duel state transitions (`duel.py`, `state.py`), the question
builder (`db.py`), the classroom web-game state machine (`tma_server.py`),
and the auto-queue preference accessors (`db.py`).

Python strings are embedded as `List Char` so that `str.strip` and friends
become provable list operations.  SQLite tables and Python dicts are
embedded as association lists or as functions to `Option`.  Randomness
(`random.choice`, `random.shuffle`, `ORDER BY RANDOM()`) and wall-clock
time are passed in as explicit parameters.
-/

/-- Python `str` as a list of characters. -/
abbrev PyStr := List Char

/-- Python `str.strip()`: drop whitespace from both ends. -/
def trimL (s : PyStr) : PyStr :=
  ((s.dropWhile Char.isWhitespace).reverse.dropWhile Char.isWhitespace).reverse

/-- `dropWhile` is idempotent. -/
theorem dropWhile_dropWhile_self {α : Type} (p : α → Bool) (l : List α) :
    (l.dropWhile p).dropWhile p = l.dropWhile p := by
  induction l with
  | nil => rfl
  | cons a t ih =>
    by_cases h : p a
    · simp [List.dropWhile_cons, h, ih]
    · simp [List.dropWhile_cons, h]

/-- The head of a `dropWhile p` result never satisfies `p`. -/
theorem head?_dropWhile_false {α : Type} (p : α → Bool) (l : List α) (c : α)
    (h : (l.dropWhile p).head? = some c) : p c = false := by
  have := List.head?_dropWhile_not p l
  rw [h] at this
  exact this

/-- Stripping is idempotent. -/
theorem trimL_trimL (s : PyStr) : trimL (trimL s) = trimL s := by
  have hfront : ∀ (w : Char → Bool) (a : List Char),
      ((a.dropWhile w).reverse.dropWhile w).reverse.dropWhile w
        = ((a.dropWhile w).reverse.dropWhile w).reverse := by
    intro w a
    cases hbr : ((a.dropWhile w).reverse.dropWhile w).reverse with
    | nil => rfl
    | cons c cs =>
      have hc : ((a.dropWhile w).reverse.dropWhile w).getLast? = some c := by
        rw [← List.head?_reverse, hbr]; rfl
      have hbne : (a.dropWhile w).reverse.dropWhile w ≠ [] := by
        intro hnil; rw [hnil] at hbr; simp at hbr
      rcases List.dropWhile_suffix (l := (a.dropWhile w).reverse) w with ⟨t, ht⟩
      have h1 : (t ++ (a.dropWhile w).reverse.dropWhile w).getLast?
          = ((a.dropWhile w).reverse.dropWhile w).getLast? :=
        List.getLast?_append_of_ne_nil t hbne
      rw [ht, List.getLast?_reverse] at h1
      have h3 : (a.dropWhile w).head? = some c := by rw [h1]; exact hc
      have hcw : w c = false := head?_dropWhile_false w a c h3
      simp [List.dropWhile_cons, hcw]
  unfold trimL
  rw [hfront Char.isWhitespace s, List.reverse_reverse,
    dropWhile_dropWhile_self]

/- ----------------------------------------------------------------
   helpers.py : score_points
   ---------------------------------------------------------------- -/

/-- `helpers.score_points`: 0 for a wrong answer; otherwise 2 for latency
up to 2000 ms, 2 again for latency up to 5000 ms, and 1 beyond that. -/
def score_points (is_correct : Bool) (latency_ms : Int) : Nat :=
  if !is_correct then 0
  else if latency_ms ≤ 2000 then 2
  else if latency_ms ≤ 5000 then 2
  else 1

/-- C1 counterexample.  The claim says the award for a correct answer at a
latency between the fast (2000 ms) and slow (5000 ms) thresholds equals the
award beyond the slow threshold; in the code the award at 3000 ms is the
full value 2 while the award at 6000 ms is 1, so they differ. -/
theorem score_points_mid_tier_ne_slow_tier :
    score_points true 3000 = 2 ∧ score_points true 6000 = 1 ∧
    ¬ score_points true 3000 = score_points true 6000 := by
  refine ⟨rfl, rfl, ?_⟩
  decide

/-- C1 (amended).  The scoring function awards 0 for an incorrect answer;
for a correct answer it awards the full value 2 for every latency up to the
slow threshold 5000 ms (the two tiers at or below 2000 ms and between
2000 ms and 5000 ms collapse to the full value), and the single reduced but
still positive value 1 beyond the slow threshold. -/
theorem score_points_tiers (l : Int) :
    score_points false l = 0 ∧
    score_points true l = (if l ≤ 5000 then 2 else 1) ∧
    0 < score_points true l := by
  unfold score_points
  by_cases h1 : l ≤ 2000
  · have h2 : l ≤ 5000 := le_trans h1 (by norm_num)
    simp [h1, h2]
  · by_cases h2 : l ≤ 5000 <;> simp [h1, h2]

/-- Witness for `score_points_tiers` at latency 3000. -/
theorem score_points_tiers_witness :
    score_points false 3000 = 0 ∧
    score_points true 3000 = (if (3000 : Int) ≤ 5000 then 2 else 1) ∧
    0 < score_points true 3000 :=
  score_points_tiers 3000

/-- C9.  For a correct answer the points at any latency at or below the
fast threshold (2000 ms) dominate the points at any latency above it, and
an incorrect answer always scores 0. -/
theorem score_points_monotone (l1 l2 l : Int) (h1 : l1 ≤ 2000) (h2 : 2000 < l2) :
    score_points true l2 ≤ score_points true l1 ∧ score_points false l = 0 := by
  constructor
  · unfold score_points
    have h2' : ¬ l2 ≤ 2000 := by omega
    by_cases h3 : l2 ≤ 5000 <;> simp [h1, h2', h3]
  · rfl

/-- Witness for `score_points_monotone` at latencies 1000, 3000 and 7. -/
theorem score_points_monotone_witness :
    score_points true 3000 ≤ score_points true 1000 ∧ score_points false 7 = 0 :=
  score_points_monotone 1000 3000 7 (by decide) (by decide)

/- ----------------------------------------------------------------
   config.py and state.py : constants and duel state
   ---------------------------------------------------------------- -/

/-- `config.TASK_TYPES`. -/
def TASK_TYPES : List String :=
  ["SYNONYM", "ANTONYM", "TRANSLATE", "DEFINITION", "GAPFILL"]

/-- `config.DEFAULT_ROUNDS_PER_DUEL`. -/
def DEFAULT_ROUNDS_PER_DUEL : Nat := 6

/-- `config.DEFAULT_ROUND_SECONDS`. -/
def DEFAULT_ROUND_SECONDS : Nat := 12

/-- The question dict returned by `DB.build_question`. -/
structure Question where
  task_type : String
  vocab_id : Nat
  prompt : PyStr
  options : List PyStr
  correct_idx : Nat
deriving DecidableEq

/-- One per-round answer entry of `DuelState.answers`:
`{"choice": ..., "latency_ms": ...}`. -/
structure Answer where
  choice : Int
  latency_ms : Int
deriving DecidableEq

/-- `state.DuelState`.  The message-id map and the timer-job handle are
transport plumbing and are not part of the embedded state. -/
structure DuelState where
  duel_id : Nat
  event_id : Nat
  p1_id : Nat
  p2_id : Nat
  task_type : String
  rounds_total : Nat
  round_seconds : Nat
  round_idx : Nat := 0
  p1_score : Nat := 0
  p2_score : Nat := 0
  active_question : Option Question := none
  answers : List (Nat × Answer) := []
  is_done : Bool := false
deriving DecidableEq

/-- Python dict lookup `duel.answers.get(uid)` on the insertion-ordered
association list embedding of the dict. -/
def lookupAns (answers : List (Nat × Answer)) (uid : Nat) : Option Answer :=
  (answers.find? (fun p => p.1 == uid)).map (fun p => p.2)

/-- One `db.record_round_result(event_id, user_id, points, is_correct)`
ledger call. -/
structure RoundRecord where
  event_id : Nat
  user_id : Nat
  points : Nat
  was_correct : Bool
deriving DecidableEq

/- ----------------------------------------------------------------
   duel.py : duel engine
   ---------------------------------------------------------------- -/

/-- `duel.finish_duel`, duel-local part: mark the duel done and compute the
win/loss pair passed to `db.record_duel_win_loss` (`none` when no winner:
a forced draw or a score tie).  Messaging and the global-index release are
modelled separately (`finish_duel_release`). -/
def finish_duel (duel : DuelState) (force_draw : Bool) : DuelState × Option (Nat × Nat) :=
  let wl : Option (Nat × Nat) :=
    if force_draw then none
    else if duel.p2_score < duel.p1_score then some (duel.p1_id, duel.p2_id)
    else if duel.p1_score < duel.p2_score then some (duel.p2_id, duel.p1_id)
    else none
  ({ duel with is_done := true }, wl)

/-- `duel.reveal_and_advance`: evaluate both players against the active
question, emit the two `record_round_result` ledger calls, add the points
to the running scores and advance the round index.  A missing active
question finishes the duel as a forced draw, mirroring the code's guard.
The `timed_out` flag only changes message text and is not modelled. -/
def reveal_and_advance (duel : DuelState) : DuelState × List RoundRecord :=
  match duel.active_question with
  | none => ((finish_duel duel true).1, [])
  | some q =>
    let eval_user : Nat → Nat × Bool := fun uid =>
      match lookupAns duel.answers uid with
      | none => (0, false)
      | some ans =>
        let ok : Bool := ans.choice == (q.correct_idx : Int)
        (score_points ok ans.latency_ms, ok)
    let p1r := eval_user duel.p1_id
    let p2r := eval_user duel.p2_id
    ({ duel with
        p1_score := duel.p1_score + p1r.1
        p2_score := duel.p2_score + p2r.1
        round_idx := duel.round_idx + 1
        active_question := none },
     [⟨duel.event_id, duel.p1_id, p1r.1, p1r.2⟩,
      ⟨duel.event_id, duel.p2_id, p2r.1, p2r.2⟩])

/-- The category-fallback loop of `duel.run_next_round`: try
`build_question` on every task type in order, returning the first hit
together with the category that produced it. -/
def first_question (gen : String → Option Question) : List String → Option (String × Question)
  | [] => none
  | t :: ts =>
    match gen t with
    | some q => some (t, q)
    | none => first_question gen ts

/-- `duel.run_next_round`, decision structure.  `gen` stands for
`db.build_question(·, k_options=4)`.  On success the duel stores the
question and clears the per-round answers (message sending, the round
timestamp and the expiry timer are transport/time plumbing); the second
component is the win/loss ledger pair when the duel finished instead. -/
def run_next_round (gen : String → Option Question) (duel : DuelState) :
    DuelState × Option (Nat × Nat) :=
  if duel.is_done then (duel, none)
  else if duel.rounds_total ≤ duel.round_idx then finish_duel duel false
  else
    match (match gen duel.task_type with
           | some q => some (duel.task_type, q)
           | none => first_question gen TASK_TYPES) with
    | none => finish_duel duel true
    | some (t, q) =>
      ({ duel with task_type := t, active_question := some q, answers := [] }, none)

/-- `duel.on_callback`, the `ans|duel|round|choice` branch after the duel
was found in `active_duels`: reject (returning the state unchanged and no
ledger calls — the handler returns `None` in every branch, so nothing is
reported to the caller) unless the sender is a participant, the round index
is current and the sender has not answered yet; otherwise record the answer
and, when both players have now answered, reveal immediately. -/
def on_callback_answer (duel : DuelState) (uid : Nat) (round_idx : Nat)
    (choice_idx : Int) (latency_ms : Int) : DuelState × List RoundRecord :=
  if duel.is_done then (duel, [])
  else if uid ≠ duel.p1_id ∧ uid ≠ duel.p2_id then (duel, [])
  else if duel.round_idx ≠ round_idx then (duel, [])
  else if (lookupAns duel.answers uid).isSome then (duel, [])
  else
    let duel' := { duel with answers := duel.answers ++ [(uid, ⟨choice_idx, latency_ms⟩)] }
    if (lookupAns duel'.answers duel'.p1_id).isSome ∧
       (lookupAns duel'.answers duel'.p2_id).isSome then
      reveal_and_advance duel'
    else (duel', [])

/-- C4.  A submission for a non-current round index, from a user who is not
one of the two players, or from a player who already answered the current
round leaves the duel state unchanged and emits no ledger call; the handler
signals nothing to the caller (it is total and returns only the state). -/
theorem on_callback_rejects_silently (duel : DuelState) (uid round_idx : Nat)
    (choice_idx latency_ms : Int)
    (h : duel.round_idx ≠ round_idx ∨ (uid ≠ duel.p1_id ∧ uid ≠ duel.p2_id) ∨
         (lookupAns duel.answers uid).isSome) :
    on_callback_answer duel uid round_idx choice_idx latency_ms = (duel, []) := by
  unfold on_callback_answer
  split_ifs with h1 h2 h3 h4 <;> try rfl
  rcases h with h | h | h
  · exact absurd h h3
  · exact absurd h h2
  · exact absurd h h4

/-- Concrete duel used by the witness of `on_callback_rejects_silently`. -/
def duelReject : DuelState :=
  { duel_id := 4001, event_id := 1, p1_id := 10, p2_id := 11,
    task_type := "SYNONYM", rounds_total := 6, round_seconds := 12 }

/-- Witness for `on_callback_rejects_silently`: user 99 is not a player of
`duelReject`, so the submission changes nothing. -/
theorem on_callback_rejects_silently_witness :
    on_callback_answer duelReject 99 0 1 500 = (duelReject, []) :=
  on_callback_rejects_silently duelReject 99 0 1 500
    (Or.inr (Or.inl (by decide)))

/-- C6.  When a round's timer fires with zero submitted answers, the reveal
still runs: both players evaluate to 0 points and wrong, exactly two ledger
records with points 0 and `wasCorrect = false` are emitted, the round index
advances by exactly 1, and the running scores are unchanged. -/
theorem reveal_timeout_zero_answers (duel : DuelState) (q : Question)
    (hq : duel.active_question = some q) (ha : duel.answers = []) :
    (reveal_and_advance duel).1.round_idx = duel.round_idx + 1 ∧
    (reveal_and_advance duel).2 =
      [⟨duel.event_id, duel.p1_id, 0, false⟩,
       ⟨duel.event_id, duel.p2_id, 0, false⟩] ∧
    (reveal_and_advance duel).1.p1_score = duel.p1_score ∧
    (reveal_and_advance duel).1.p2_score = duel.p2_score := by
  unfold reveal_and_advance
  rw [hq]
  simp [lookupAns, ha]

/-- Concrete question used by the timeout witness. -/
def questionTimeout : Question :=
  { task_type := "SYNONYM", vocab_id := 1, prompt := [],
    options := [['a'], ['b']], correct_idx := 0 }

/-- Concrete duel used by the timeout witness: a live round, no answers. -/
def duelTimeout : DuelState :=
  { duel_id := 4002, event_id := 3, p1_id := 20, p2_id := 21,
    task_type := "SYNONYM", rounds_total := 6, round_seconds := 12,
    active_question := some questionTimeout }

/-- Witness for `reveal_timeout_zero_answers` on `duelTimeout`. -/
theorem reveal_timeout_zero_answers_witness :
    (reveal_and_advance duelTimeout).1.round_idx = duelTimeout.round_idx + 1 ∧
    (reveal_and_advance duelTimeout).2 =
      [⟨duelTimeout.event_id, duelTimeout.p1_id, 0, false⟩,
       ⟨duelTimeout.event_id, duelTimeout.p2_id, 0, false⟩] ∧
    (reveal_and_advance duelTimeout).1.p1_score = duelTimeout.p1_score ∧
    (reveal_and_advance duelTimeout).1.p2_score = duelTimeout.p2_score :=
  reveal_timeout_zero_answers duelTimeout questionTimeout rfl rfl

/-- C5.  At the final round count the duel finishes without a forced draw:
the strictly higher cumulative score wins and yields exactly one win/loss
ledger pair, a tie yields none; and when the question generator yields no
question for the duel's category nor any fallback category, the duel
finishes as a forced draw with no win/loss ledger pair. -/
theorem finish_outcome_and_forced_draw (gen : String → Option Question)
    (duel : DuelState) (hd : duel.is_done = false) :
    (duel.rounds_total ≤ duel.round_idx →
       run_next_round gen duel = finish_duel duel false) ∧
    (duel.p2_score < duel.p1_score →
       (finish_duel duel false).2 = some (duel.p1_id, duel.p2_id)) ∧
    (duel.p1_score < duel.p2_score →
       (finish_duel duel false).2 = some (duel.p2_id, duel.p1_id)) ∧
    (duel.p1_score = duel.p2_score → (finish_duel duel false).2 = none) ∧
    (duel.round_idx < duel.rounds_total → (∀ t, gen t = none) →
       run_next_round gen duel = finish_duel duel true ∧
       (finish_duel duel true).2 = none ∧
       (finish_duel duel true).1.is_done = true) := by
  refine ⟨?_, ?_, ?_, ?_, ?_⟩
  · intro hle
    unfold run_next_round
    simp [hd, hle]
  · intro hgt
    unfold finish_duel
    simp [hgt]
  · intro hgt
    unfold finish_duel
    have : ¬ duel.p2_score < duel.p1_score := by omega
    simp [this, hgt]
  · intro heq
    unfold finish_duel
    have h1 : ¬ duel.p2_score < duel.p1_score := by omega
    have h2 : ¬ duel.p1_score < duel.p2_score := by omega
    simp [h1, h2]
  · intro hlt hgen
    have hlt' : ¬ duel.rounds_total ≤ duel.round_idx := by omega
    refine ⟨?_, rfl, rfl⟩
    unfold run_next_round
    simp [hd, hlt', hgen, TASK_TYPES, first_question]

/-- The always-empty question generator used by the forced-draw witness. -/
def genNone : String → Option Question := fun _ => none

/-- Concrete finished duel used by the witness of
`finish_outcome_and_forced_draw`: 6 of 6 rounds played, player 1 ahead. -/
def duelFinal : DuelState :=
  { duel_id := 4003, event_id := 5, p1_id := 30, p2_id := 31,
    task_type := "ANTONYM", rounds_total := 6, round_seconds := 12,
    round_idx := 6, p1_score := 7, p2_score := 4 }

/-- Witness for `finish_outcome_and_forced_draw` on `duelFinal`. -/
theorem finish_outcome_and_forced_draw_witness :
    (duelFinal.rounds_total ≤ duelFinal.round_idx →
       run_next_round genNone duelFinal = finish_duel duelFinal false) ∧
    (duelFinal.p2_score < duelFinal.p1_score →
       (finish_duel duelFinal false).2 = some (duelFinal.p1_id, duelFinal.p2_id)) ∧
    (duelFinal.p1_score < duelFinal.p2_score →
       (finish_duel duelFinal false).2 = some (duelFinal.p2_id, duelFinal.p1_id)) ∧
    (duelFinal.p1_score = duelFinal.p2_score →
       (finish_duel duelFinal false).2 = none) ∧
    (duelFinal.round_idx < duelFinal.rounds_total → (∀ t, genNone t = none) →
       run_next_round genNone duelFinal = finish_duel duelFinal true ∧
       (finish_duel duelFinal true).2 = none ∧
       (finish_duel duelFinal true).1.is_done = true) :=
  finish_outcome_and_forced_draw genNone duelFinal rfl

/- ----------------------------------------------------------------
   state.py + duel.py : matchmaking over the shared global state
   ---------------------------------------------------------------- -/

/-- The shared module-level state of `state.py`: the waiting queue of the
global event, the `user_to_duel` index, the `active_duels` table and the
duel-id counter `_duel_seq` (dicts embedded as functions to `Option`). -/
structure MatchState where
  queue : List Nat
  user_to_duel : Nat → Option Nat
  active_duels : Nat → Option DuelState
  duel_seq : Nat

/-- The duel built by `try_matchmake`:
`DuelState(duel_id, event_id, p1, p2, current_task_type(), DEFAULT_ROUNDS_PER_DUEL, DEFAULT_ROUND_SECONDS)`. -/
def mkDuel (duel_id event_id p1 p2 : Nat) (tt : String) : DuelState :=
  { duel_id := duel_id, event_id := event_id, p1_id := p1, p2_id := p2,
    task_type := tt, rounds_total := DEFAULT_ROUNDS_PER_DUEL,
    round_seconds := DEFAULT_ROUND_SECONDS }

/-- The scan of `try_matchmake`: find the first queue entry distinct from
`p1` and remove it (`queue.pop(i)`), leaving every other entry in relative
order.  `none` when every entry equals `p1`. -/
def find_distinct (p1 : Nat) : List Nat → Option (Nat × List Nat)
  | [] => none
  | c :: rest =>
    if c ≠ p1 then some (c, rest)
    else
      match find_distinct p1 rest with
      | none => none
      | some (p2, rest') => some (p2, c :: rest')

/-- One iteration of the `while len(queue) >= 2` body of
`duel.try_matchmake`: pop the head as candidate `p1`; take the first
distinct entry as `p2`; on no distinct entry put `p1` back (the queue is
unchanged) and stop; discard the pairing when either player is already
bound; otherwise allocate the next duel id, create the duel, and bind both
players in `user_to_duel`. -/
def try_matchmake_step (event_id : Nat) (tt : String) (s : MatchState) : MatchState :=
  if s.queue.length < 2 then s
  else
    match s.queue with
    | [] => s
    | p1 :: rest =>
      match find_distinct p1 rest with
      | none => s
      | some (p2, rest') =>
        if (s.user_to_duel p1).isSome ∨ (s.user_to_duel p2).isSome then
          { s with queue := rest' }
        else
          { queue := rest'
            user_to_duel := fun u =>
              if u = p1 ∨ u = p2 then some (s.duel_seq + 1) else s.user_to_duel u
            active_duels := fun i =>
              if i = s.duel_seq + 1 then
                some (mkDuel (s.duel_seq + 1) event_id p1 p2 tt)
              else s.active_duels i
            duel_seq := s.duel_seq + 1 }

/-- The release step at the end of `duel.finish_duel`:
`active_duels.pop(duel_id)`, `user_to_duel.pop(p1)`, `user_to_duel.pop(p2)`. -/
def finish_duel_release (st : MatchState) (duel : DuelState) : MatchState :=
  { st with
    active_duels := fun i => if i = duel.duel_id then none else st.active_duels i
    user_to_duel := fun u =>
      if u = duel.p1_id ∨ u = duel.p2_id then none else st.user_to_duel u }

/-- A list containing an element distinct from `p1` splits at its first
such element, with only copies of `p1` before it. -/
theorem exists_first_distinct (p1 : Nat) (l : List Nat) (hx : ∃ x ∈ l, x ≠ p1) :
    ∃ p2 pre post, l = pre ++ p2 :: post ∧ (∀ y ∈ pre, y = p1) ∧ p2 ≠ p1 := by
  induction l with
  | nil => simp at hx
  | cons c rest ih =>
    by_cases hc : c = p1
    · subst hc
      have hx' : ∃ x ∈ rest, x ≠ c := by
        rcases hx with ⟨x, hmem, hne⟩
        rcases List.mem_cons.mp hmem with rfl | hmem'
        · exact absurd rfl hne
        · exact ⟨x, hmem', hne⟩
      rcases ih hx' with ⟨p2, pre, post, heq, hpre, hne⟩
      refine ⟨p2, c :: pre, post, by simp [heq], ?_, hne⟩
      intro y hy
      rcases List.mem_cons.mp hy with rfl | hy'
      · rfl
      · exact hpre y hy'
    · exact ⟨c, [], rest, by simp, by simp, hc⟩

/-- `find_distinct` on a first-distinct split removes exactly that entry. -/
theorem find_distinct_pre (p1 p2 : Nat) (pre post : List Nat)
    (hpre : ∀ y ∈ pre, y = p1) (hne : p2 ≠ p1) :
    find_distinct p1 (pre ++ p2 :: post) = some (p2, pre ++ post) := by
  induction pre with
  | nil => simp [find_distinct, hne]
  | cons c cs ih =>
    have hc : c = p1 := hpre c (by simp)
    have ih' := ih (fun y hy => hpre y (by simp [hy]))
    subst hc
    simp [find_distinct, ih']

/-- Core of the matchmaking pass: with the head and a first-distinct split
in the queue and both candidates unbound, the step produces exactly the
bound-and-created state. -/
theorem try_matchmake_step_core (eid : Nat) (tt : String) (s : MatchState)
    (p1 p2 : Nat) (pre post : List Nat)
    (hq : s.queue = p1 :: (pre ++ p2 :: post))
    (hpre : ∀ y ∈ pre, y = p1) (hne : p2 ≠ p1)
    (h1 : s.user_to_duel p1 = none) (h2 : s.user_to_duel p2 = none) :
    try_matchmake_step eid tt s =
      { queue := pre ++ post
        user_to_duel := fun u =>
          if u = p1 ∨ u = p2 then some (s.duel_seq + 1) else s.user_to_duel u
        active_duels := fun i =>
          if i = s.duel_seq + 1 then some (mkDuel (s.duel_seq + 1) eid p1 p2 tt)
          else s.active_duels i
        duel_seq := s.duel_seq + 1 } := by
  have hfd := find_distinct_pre p1 p2 pre post hpre hne
  have hlen : ¬ s.queue.length < 2 := by
    rw [hq]
    simp
    omega
  unfold try_matchmake_step
  rw [if_neg hlen, hq]
  simp only [hfd, h1, h2]
  simp

/-- C2.  On a queue whose head `p1` is followed by some distinct entry,
with no queued player bound in `user_to_duel`, one matchmaking pass removes
exactly the head and the first distinct entry `p2` (all untouched entries
keep their relative order), shrinks the queue by exactly 2, binds `p1` and
`p2` to the freshly allocated duel id, changes no other binding, and stores
exactly one new duel under that id. -/
theorem try_matchmake_pairs_two (eid : Nat) (tt : String) (s : MatchState)
    (p1 : Nat) (rest : List Nat)
    (hq : s.queue = p1 :: rest)
    (hx : ∃ x ∈ rest, x ≠ p1)
    (hfree : ∀ u ∈ s.queue, s.user_to_duel u = none) :
    ∃ p2 pre post,
      rest = pre ++ p2 :: post ∧ (∀ y ∈ pre, y = p1) ∧ p2 ≠ p1 ∧
      (try_matchmake_step eid tt s).queue = pre ++ post ∧
      (try_matchmake_step eid tt s).queue.length + 2 = s.queue.length ∧
      (try_matchmake_step eid tt s).user_to_duel p1 = some (s.duel_seq + 1) ∧
      (try_matchmake_step eid tt s).user_to_duel p2 = some (s.duel_seq + 1) ∧
      (∀ u, u ≠ p1 → u ≠ p2 →
        (try_matchmake_step eid tt s).user_to_duel u = s.user_to_duel u) ∧
      (try_matchmake_step eid tt s).active_duels (s.duel_seq + 1) =
        some (mkDuel (s.duel_seq + 1) eid p1 p2 tt) ∧
      (∀ i, i ≠ s.duel_seq + 1 →
        (try_matchmake_step eid tt s).active_duels i = s.active_duels i) ∧
      (try_matchmake_step eid tt s).duel_seq = s.duel_seq + 1 := by
  rcases exists_first_distinct p1 rest hx with ⟨p2, pre, post, hrest, hpre, hne⟩
  have h1 : s.user_to_duel p1 = none := hfree p1 (by rw [hq]; simp)
  have h2 : s.user_to_duel p2 = none := hfree p2 (by rw [hq, hrest]; simp)
  have hcore := try_matchmake_step_core eid tt s p1 p2 pre post
    (by rw [hq, hrest]) hpre hne h1 h2
  refine ⟨p2, pre, post, hrest, hpre, hne, ?_, ?_, ?_, ?_, ?_, ?_, ?_, ?_⟩
  · rw [hcore]
  · rw [hcore, hq, hrest]
    simp
    omega
  · rw [hcore]
    simp
  · rw [hcore]
    simp
  · intro u hu1 hu2
    rw [hcore]
    simp [hu1, hu2]
  · rw [hcore]
    simp
  · intro i hi
    rw [hcore]
    simp [hi]
  · rw [hcore]

/-- The concrete shared state used by the matchmaking witnesses: players 1
and 2 waiting, nobody bound, no active duel, counter at 4000. -/
def matchQueueState : MatchState :=
  { queue := [1, 2], user_to_duel := fun _ => none,
    active_duels := fun _ => none, duel_seq := 4000 }

/-- Witness for `try_matchmake_pairs_two` on `matchQueueState`. -/
theorem try_matchmake_pairs_two_witness :
    ∃ p2 pre post,
      [2] = pre ++ p2 :: post ∧ (∀ y ∈ pre, y = 1) ∧ p2 ≠ 1 ∧
      (try_matchmake_step 7 "SYNONYM" matchQueueState).queue = pre ++ post ∧
      (try_matchmake_step 7 "SYNONYM" matchQueueState).queue.length + 2 =
        matchQueueState.queue.length ∧
      (try_matchmake_step 7 "SYNONYM" matchQueueState).user_to_duel 1 =
        some (matchQueueState.duel_seq + 1) ∧
      (try_matchmake_step 7 "SYNONYM" matchQueueState).user_to_duel p2 =
        some (matchQueueState.duel_seq + 1) ∧
      (∀ u, u ≠ 1 → u ≠ p2 →
        (try_matchmake_step 7 "SYNONYM" matchQueueState).user_to_duel u =
          matchQueueState.user_to_duel u) ∧
      (try_matchmake_step 7 "SYNONYM" matchQueueState).active_duels
          (matchQueueState.duel_seq + 1) =
        some (mkDuel (matchQueueState.duel_seq + 1) 7 1 p2 "SYNONYM") ∧
      (∀ i, i ≠ matchQueueState.duel_seq + 1 →
        (try_matchmake_step 7 "SYNONYM" matchQueueState).active_duels i =
          matchQueueState.active_duels i) ∧
      (try_matchmake_step 7 "SYNONYM" matchQueueState).duel_seq =
        matchQueueState.duel_seq + 1 :=
  try_matchmake_pairs_two 7 "SYNONYM" matchQueueState 1 [2] rfl
    ⟨2, by simp, by decide⟩ (fun u _ => rfl)

/-- C3.  Matchmaking binds both paired players to the newly created duel id
and (the index being a map) to no other id; and the release step of
`finish_duel` removes both of the duel's players from the index. -/
theorem duel_binding_exclusive (eid : Nat) (tt : String) (s : MatchState)
    (p1 : Nat) (rest : List Nat)
    (hq : s.queue = p1 :: rest)
    (hx : ∃ x ∈ rest, x ≠ p1)
    (hfree : ∀ u ∈ s.queue, s.user_to_duel u = none) :
    (∃ p2, p2 ∈ rest ∧ p2 ≠ p1 ∧
      (try_matchmake_step eid tt s).user_to_duel p1 = some (s.duel_seq + 1) ∧
      (try_matchmake_step eid tt s).user_to_duel p2 = some (s.duel_seq + 1) ∧
      (∀ d, (try_matchmake_step eid tt s).user_to_duel p1 = some d →
        d = s.duel_seq + 1) ∧
      (∀ d, (try_matchmake_step eid tt s).user_to_duel p2 = some d →
        d = s.duel_seq + 1)) ∧
    (∀ (st : MatchState) (duel : DuelState),
      (finish_duel_release st duel).user_to_duel duel.p1_id = none ∧
      (finish_duel_release st duel).user_to_duel duel.p2_id = none) := by
  constructor
  · rcases exists_first_distinct p1 rest hx with ⟨p2, pre, post, hrest, hpre, hne⟩
    have h1 : s.user_to_duel p1 = none := hfree p1 (by rw [hq]; simp)
    have h2 : s.user_to_duel p2 = none := hfree p2 (by rw [hq, hrest]; simp)
    have hcore := try_matchmake_step_core eid tt s p1 p2 pre post
      (by rw [hq, hrest]) hpre hne h1 h2
    refine ⟨p2, by rw [hrest]; simp, hne, ?_, ?_, ?_, ?_⟩ <;> rw [hcore] <;> simp
  · intro st duel
    constructor <;> simp [finish_duel_release]

/-- Witness for `duel_binding_exclusive` on `matchQueueState`. -/
theorem duel_binding_exclusive_witness :
    (∃ p2, p2 ∈ [2] ∧ p2 ≠ 1 ∧
      (try_matchmake_step 8 "ANTONYM" matchQueueState).user_to_duel 1 =
        some (matchQueueState.duel_seq + 1) ∧
      (try_matchmake_step 8 "ANTONYM" matchQueueState).user_to_duel p2 =
        some (matchQueueState.duel_seq + 1) ∧
      (∀ d, (try_matchmake_step 8 "ANTONYM" matchQueueState).user_to_duel 1 =
        some d → d = matchQueueState.duel_seq + 1) ∧
      (∀ d, (try_matchmake_step 8 "ANTONYM" matchQueueState).user_to_duel p2 =
        some d → d = matchQueueState.duel_seq + 1)) ∧
    (∀ (st : MatchState) (duel : DuelState),
      (finish_duel_release st duel).user_to_duel duel.p1_id = none ∧
      (finish_duel_release st duel).user_to_duel duel.p2_id = none) :=
  duel_binding_exclusive 8 "ANTONYM" matchQueueState 1 [2] rfl
    ⟨2, by simp, by decide⟩ (fun u _ => rfl)

/- ----------------------------------------------------------------
   tma_server.py : ClassroomGame
   ---------------------------------------------------------------- -/

/-- One per-player record of `ClassroomGame.players`:
`{name, score, correct, wrong}`. -/
structure CPlayer where
  name : PyStr
  score : Nat
  correct : Nat
  wrong : Nat
deriving DecidableEq

/-- One entry of `ClassroomGame.answers`: `{"choice": ..., "time": ...}`. -/
structure CAnswer where
  choice : Int
  time : Int
deriving DecidableEq

/-- `tma_server.ClassroomGame`.  The float `round_start_time` and the
accumulated `round_results` log are not touched by `submit_answer` and are
left out of the embedded record; the latency derived from the timestamp is
passed to `submit_answer` as a parameter. -/
structure ClassroomGame where
  is_open : Bool
  is_running : Bool
  is_finished : Bool
  players : List (Nat × CPlayer)
  current_round : Nat
  total_rounds : Nat
  round_seconds : Nat
  current_question : Option Question
  answers : List (Nat × CAnswer)
  task_type : String
deriving DecidableEq

/-- Dict lookup in `ClassroomGame.players`. -/
def lookupCP (players : List (Nat × CPlayer)) (uid : Nat) : Option CPlayer :=
  (players.find? (fun p => p.1 == uid)).map (fun p => p.2)

/-- Dict lookup in `ClassroomGame.answers`. -/
def lookupCA (answers : List (Nat × CAnswer)) (uid : Nat) : Option CAnswer :=
  (answers.find? (fun p => p.1 == uid)).map (fun p => p.2)

/-- `ClassroomGame.submit_answer`: reject (returning `False` with the state
untouched) when the game is not running, the player never joined, the
player already answered this round, or no question is active; otherwise
record `{"choice": choice, "time": latency_ms}` and return `True`.
`latency_ms` stands for `int((time.time() - round_start_time) * 1000)`. -/
def submit_answer (g : ClassroomGame) (user_id : Nat) (choice latency_ms : Int) :
    ClassroomGame × Bool :=
  if g.is_running = false ∨ lookupCP g.players user_id = none then (g, false)
  else if (lookupCA g.answers user_id).isSome then (g, false)
  else if g.current_question = none then (g, false)
  else ({ g with answers := g.answers ++ [(user_id, ⟨choice, latency_ms⟩)] }, true)

/-- C8.  `submit_answer` fails and leaves the state unchanged exactly when
the game is not running, or the player never joined, or the player already
answered the current round, or no question is active; otherwise it appends
the player's choice with the computed latency and succeeds. -/
theorem submit_answer_spec (g : ClassroomGame) (uid : Nat) (choice lat : Int) :
    (submit_answer g uid choice lat = (g, false) ↔
      (g.is_running = false ∨ lookupCP g.players uid = none ∨
       (lookupCA g.answers uid).isSome ∨ g.current_question = none)) ∧
    (¬ (g.is_running = false ∨ lookupCP g.players uid = none ∨
        (lookupCA g.answers uid).isSome ∨ g.current_question = none) →
      submit_answer g uid choice lat =
        ({ g with answers := g.answers ++ [(uid, ⟨choice, lat⟩)] }, true)) := by
  constructor
  · unfold submit_answer
    split_ifs with h1 h2 h3
    · simp
      tauto
    · simp
      tauto
    · simp
      tauto
    · constructor
      · intro he
        have : (true : Bool) = false := congrArg Prod.snd he
        simp at this
      · intro hc
        tauto
  · intro h
    unfold submit_answer
    have h1 : ¬ (g.is_running = false ∨ lookupCP g.players uid = none) := by tauto
    have h2 : ¬ (lookupCA g.answers uid).isSome = true := by tauto
    have h3 : ¬ g.current_question = none := by tauto
    simp [h1, h2, h3]

/-- Concrete classroom game used by the `submit_answer` witness: running,
one joined player (id 5) who has not answered, with an active question. -/
def classroomRunning : ClassroomGame :=
  { is_open := false, is_running := true, is_finished := false,
    players := [(5, ⟨['A'], 0, 0, 0⟩)], current_round := 1,
    total_rounds := 10, round_seconds := 12,
    current_question := some ⟨"SYNONYM", 1, [], [['a'], ['b']], 0⟩,
    answers := [], task_type := "SYNONYM" }

/-- Witness for `submit_answer_spec` on `classroomRunning` and user 5. -/
theorem submit_answer_spec_witness :
    (submit_answer classroomRunning 5 0 700 = (classroomRunning, false) ↔
      (classroomRunning.is_running = false ∨
       lookupCP classroomRunning.players 5 = none ∨
       (lookupCA classroomRunning.answers 5).isSome ∨
       classroomRunning.current_question = none)) ∧
    (¬ (classroomRunning.is_running = false ∨
        lookupCP classroomRunning.players 5 = none ∨
        (lookupCA classroomRunning.answers 5).isSome ∨
        classroomRunning.current_question = none) →
      submit_answer classroomRunning 5 0 700 =
        ({ classroomRunning with
            answers := classroomRunning.answers ++ [(5, ⟨0, 700⟩)] }, true)) :=
  submit_answer_spec classroomRunning 5 0 700

/- ----------------------------------------------------------------
   db.py : player enrollment and the auto-queue preference
   ---------------------------------------------------------------- -/

/-- One row of the `event_players` table. -/
structure PlayerRow where
  event_id : Nat
  chat_id : Nat
  user_id : Nat
  joined_at : Nat
  wins : Nat := 0
  losses : Nat := 0
  points : Nat := 0
  correct : Nat := 0
  wrong : Nat := 0
deriving DecidableEq

/-- The two tables touched by `DB.ensure_player`, keyed by the primary key
`(event_id, user_id)`. -/
structure DBTables where
  event_players : List ((Nat × Nat) × PlayerRow)
  player_prefs : List ((Nat × Nat) × Int)
deriving DecidableEq

/-- `SELECT auto_queue FROM player_prefs WHERE event_id = ? AND user_id = ?`. -/
def lookupPref (prefs : List ((Nat × Nat) × Int)) (eid uid : Nat) : Option Int :=
  (prefs.find? (fun r => r.1 == (eid, uid))).map (fun r => r.2)

/-- `DB.get_auto_queue`: the stored value, or 1 when no row exists. -/
def get_auto_queue (prefs : List ((Nat × Nat) × Int)) (eid uid : Nat) : Int :=
  match lookupPref prefs eid uid with
  | some v => v
  | none => 1

/-- `DB.ensure_player`: `INSERT OR IGNORE` a fresh `event_players` row and
an `auto_queue = 1` row in `player_prefs`. -/
def ensure_player (db : DBTables) (eid uid chat now : Nat) : DBTables :=
  { event_players :=
      match db.event_players.find? (fun r => r.1 == (eid, uid)) with
      | some _ => db.event_players
      | none =>
        db.event_players ++
          [((eid, uid),
            { event_id := eid, chat_id := chat, user_id := uid, joined_at := now })]
    player_prefs :=
      match db.player_prefs.find? (fun r => r.1 == (eid, uid)) with
      | some _ => db.player_prefs
      | none => db.player_prefs ++ [((eid, uid), 1)] }

/-- The auto-queue gate of `duel.maybe_enqueue_and_match`:
`db.get_auto_queue(event_id, user_id) != 1` aborts enqueueing, so a player
is auto-queue eligible exactly when the value is 1. -/
def auto_queue_eligible (prefs : List ((Nat × Nat) × Int)) (eid uid : Nat) : Bool :=
  get_auto_queue prefs eid uid == 1

/-- C10.  With no stored preference row the query returns 1 (enabled),
enrolling seeds the row to 1, and hence a newly enrolled player who never
set a preference passes the auto-queue eligibility gate of matchmaking. -/
theorem auto_queue_default_enabled (db : DBTables) (eid uid chat now : Nat)
    (h : lookupPref db.player_prefs eid uid = none) :
    get_auto_queue db.player_prefs eid uid = 1 ∧
    auto_queue_eligible db.player_prefs eid uid = true ∧
    lookupPref (ensure_player db eid uid chat now).player_prefs eid uid = some 1 ∧
    get_auto_queue (ensure_player db eid uid chat now).player_prefs eid uid = 1 ∧
    auto_queue_eligible (ensure_player db eid uid chat now).player_prefs eid uid = true := by
  have hf : db.player_prefs.find? (fun r => r.1 == (eid, uid)) = none := by
    unfold lookupPref at h
    exact Option.map_eq_none'.mp h
  have hnewprefs : (ensure_player db eid uid chat now).player_prefs =
      db.player_prefs ++ [((eid, uid), 1)] := by
    unfold ensure_player
    rw [hf]
  have hlook : lookupPref (ensure_player db eid uid chat now).player_prefs eid uid = some 1 := by
    rw [hnewprefs]
    unfold lookupPref
    rw [List.find?_append, hf]
    simp
  refine ⟨?_, ?_, hlook, ?_, ?_⟩
  · unfold get_auto_queue
    rw [h]
  · unfold auto_queue_eligible get_auto_queue
    rw [h]
    rfl
  · unfold get_auto_queue
    rw [hlook]
  · unfold auto_queue_eligible get_auto_queue
    rw [hlook]
    rfl

/-- Empty tables used by the auto-queue witness. -/
def emptyTables : DBTables := { event_players := [], player_prefs := [] }

/-- Witness for `auto_queue_default_enabled` on empty tables. -/
theorem auto_queue_default_enabled_witness :
    get_auto_queue emptyTables.player_prefs 1 42 = 1 ∧
    auto_queue_eligible emptyTables.player_prefs 1 42 = true ∧
    lookupPref (ensure_player emptyTables 1 42 0 100).player_prefs 1 42 = some 1 ∧
    get_auto_queue (ensure_player emptyTables 1 42 0 100).player_prefs 1 42 = 1 ∧
    auto_queue_eligible (ensure_player emptyTables 1 42 0 100).player_prefs 1 42 = true :=
  auto_queue_default_enabled emptyTables 1 42 0 100 rfl

/- ----------------------------------------------------------------
   db.py : DB.build_question
   ---------------------------------------------------------------- -/

/-- A Lean string literal as a `PyStr`. -/
def strL (s : String) : PyStr := s.toList

/-- Python `str.lower()` (ASCII model). -/
def lowerL (s : PyStr) : PyStr := s.map Char.toLower

/-- Python `str.capitalize()`: first character upper-cased, rest
lower-cased (ASCII model). -/
def capitalizeL : PyStr → PyStr
  | [] => []
  | c :: rest => c.toUpper :: rest.map Char.toLower

/-- Python `needle in hay` on strings. -/
def containsL (hay needle : PyStr) : Bool :=
  (List.range (hay.length + 1)).any (fun i => needle.isPrefixOf (hay.drop i))

/-- Python `str.replace(pat, repl)` for a non-empty `pat` (the only use,
`GAPFILL`, guards `pat` non-empty; the empty-pattern insertion behaviour of
Python is not reproduced). -/
def replaceL (pat repl : PyStr) : PyStr → PyStr
  | [] => []
  | c :: rest =>
    if h : pat ≠ [] ∧ pat.isPrefixOf (c :: rest) then
      repl ++ replaceL pat repl ((c :: rest).drop pat.length)
    else
      c :: replaceL pat repl rest
termination_by s => s.length
decreasing_by
  · simp only [List.length_drop, List.length_cons]
    have hp : 0 < pat.length := List.length_pos.mpr h.1
    omega
  · simp only [List.length_cons]
    omega

/-- Python `html.escape` with its default quoting. -/
def escapeHtml (s : PyStr) : PyStr :=
  (s.map (fun c =>
    if c = '&' then strL "&amp;"
    else if c = '<' then strL "&lt;"
    else if c = '>' then strL "&gt;"
    else if c = '"' then strL "&quot;"
    else if c = Char.ofNat 39 then strL "&#x27;"
    else [c])).flatten

/-- One row of the `vocab` table, with the two `*_json` columns already
decoded to lists (as `json.loads` does at the top of `build_question`).
`example_` embeds the `example` column (`example` is reserved in Lean). -/
structure VocabRow where
  id : Nat
  word : PyStr
  definition : PyStr
  translation : PyStr
  synonyms : List PyStr
  antonyms : List PyStr
  example_ : PyStr
deriving DecidableEq

/-- The per-category head of `DB.build_question`: the guards, the correct
answer and the prompt.  `choiceFn` stands for `random.choice`. -/
def correct_and_prompt (r : VocabRow) (choiceFn : List PyStr → PyStr)
    (task_type : String) : Option (PyStr × PyStr) :=
  let word := trimL r.word
  let definition := trimL r.definition
  let translation := trimL r.translation
  let example_ := trimL r.example_
  if task_type = "SYNONYM" then
    if r.synonyms = [] then none
    else some (trimL (choiceFn r.synonyms),
      strL "Pick a <b>synonym</b> for:\n<b>" ++ escapeHtml word ++ strL "</b>")
  else if task_type = "ANTONYM" then
    if r.antonyms = [] then none
    else some (trimL (choiceFn r.antonyms),
      strL "Pick an <b>antonym</b> for:\n<b>" ++ escapeHtml word ++ strL "</b>")
  else if task_type = "TRANSLATE" then
    if translation = [] then none
    else some (translation,
      strL "Pick the <b>translation</b> for:\n<b>" ++ escapeHtml word ++ strL "</b>")
  else if task_type = "DEFINITION" then
    if definition = [] then none
    else some (definition,
      strL "Pick the <b>definition</b> of:\n<b>" ++ escapeHtml word ++ strL "</b>")
  else if task_type = "GAPFILL" then
    if example_ = [] then none
    else
      let blanked :=
        if word ≠ [] ∧ containsL (lowerL example_) (lowerL word) then
          replaceL (capitalizeL word) (strL "____")
            (replaceL word (strL "____") example_)
        else example_ ++ strL " (____)"
      some (word,
        strL "Fill the blank:\n<blockquote>" ++ escapeHtml blanked
          ++ strL "</blockquote>")
  else none

/-- The correct answer `build_question` works with for a given row, random
pick and category. -/
def correctOf (r : VocabRow) (choiceFn : List PyStr → PyStr)
    (task_type : String) : Option PyStr :=
  (correct_and_prompt r choiceFn task_type).map (fun p => p.1)

/-- Python `list(dict.fromkeys(l))`: order-preserving deduplication keeping
the first occurrence of every value (structural formulation: keep the head,
deduplicate the tail, then drop later copies of the head). -/
def dedupFirst {α : Type} [DecidableEq α] : List α → List α
  | [] => []
  | x :: xs => x :: (dedupFirst xs).filter (fun y => decide (y ≠ x))

/-- The padding loop of `build_question`: append each padding word not
already among the options. -/
def padOptions {α : Type} [DecidableEq α] (opts pads : List α) : List α :=
  pads.foldl (fun acc p => if p ∈ acc then acc else acc ++ [p]) opts

/-- The distinct option pool `build_question` assembles before its `< 2`
check: correct answer first, then the non-empty distractors different from
it, all stripped, deduplicated, and padded up to `k` with fresh pad words
(`pads` stands for the second `_random_words` call). -/
def assembled_pool (correct : PyStr) (distractors pads : List PyStr)
    (k : Nat) : List PyStr :=
  let options0 := correct :: distractors.filter
    (fun d => decide (d ≠ [] ∧ d ≠ correct))
  let stripped := (options0.filter (fun o => decide (trimL o ≠ []))).map trimL
  let deduped := dedupFirst stripped
  if deduped.length < k then padOptions deduped pads else deduped

/-- The tail of `build_question` up to the `< 2` guard and the `[:k]`
truncation (before shuffling). -/
def assemble_options (correct : PyStr) (distractors pads : List PyStr)
    (k : Nat) : Option (List PyStr) :=
  let pool := assembled_pool correct distractors pads k
  if pool.length < 2 then none else some (pool.take k)

/-- `DB.build_question(task_type, k_options)`.  The sampled vocab row, the
`random.choice` pick, the two `_random_words`/`_random_field_values` draws
and the `random.shuffle` permutation are explicit parameters. -/
def build_question (row : Option VocabRow) (choiceFn : List PyStr → PyStr)
    (distractors pads : List PyStr) (shuffleFn : List PyStr → List PyStr)
    (task_type : String) (k_options : Nat) : Option Question :=
  match row with
  | none => none
  | some r =>
    match correct_and_prompt r choiceFn task_type with
    | none => none
    | some (correct, prompt) =>
      match assemble_options correct distractors pads k_options with
      | none => none
      | some opts =>
        let options := shuffleFn opts
        some { task_type := task_type, vocab_id := r.id, prompt := prompt,
               options := options, correct_idx := options.indexOf correct }

/-- Membership is preserved by order-preserving deduplication. -/
theorem mem_dedupFirst {α : Type} [DecidableEq α] (a : α) :
    ∀ l : List α, a ∈ dedupFirst l ↔ a ∈ l := by
  intro l
  induction l with
  | nil => simp [dedupFirst]
  | cons x xs ih =>
    simp only [dedupFirst, List.mem_cons, List.mem_filter]
    constructor
    · rintro (rfl | ⟨hmem, _⟩)
      · exact Or.inl rfl
      · exact Or.inr (ih.mp hmem)
    · rintro (rfl | h')
      · exact Or.inl rfl
      · by_cases hax : a = x
        · exact Or.inl hax
        · exact Or.inr ⟨ih.mpr h', by simp [hax]⟩

/-- Order-preserving deduplication yields a duplicate-free list. -/
theorem nodup_dedupFirst {α : Type} [DecidableEq α] :
    ∀ l : List α, (dedupFirst l).Nodup := by
  intro l
  induction l with
  | nil => simp [dedupFirst]
  | cons x xs ih =>
    rw [dedupFirst]
    refine List.nodup_cons.mpr ⟨?_, List.Nodup.filter _ ih⟩
    intro hx
    have := (List.mem_filter.mp hx).2
    simp at this

/-- The padding loop preserves duplicate-freeness. -/
theorem nodup_padOptions {α : Type} [DecidableEq α] (pads : List α) :
    ∀ opts : List α, opts.Nodup → (padOptions opts pads).Nodup := by
  induction pads with
  | nil => intro opts h; exact h
  | cons p ps ih =>
    intro opts h
    unfold padOptions
    rw [List.foldl_cons]
    by_cases hp : p ∈ opts
    · rw [if_pos hp]
      exact ih opts h
    · rw [if_neg hp]
      exact ih (opts ++ [p]) (by simp [List.nodup_append, h, hp])

/-- The padding loop keeps every existing option. -/
theorem mem_padOptions {α : Type} [DecidableEq α] (a : α) (pads : List α) :
    ∀ opts : List α, a ∈ opts → a ∈ padOptions opts pads := by
  induction pads with
  | nil => intro opts h; exact h
  | cons p ps ih =>
    intro opts h
    unfold padOptions
    rw [List.foldl_cons]
    by_cases hp : p ∈ opts
    · rw [if_pos hp]; exact ih opts h
    · rw [if_neg hp]; exact ih (opts ++ [p]) (by simp [h])

/-- The padding loop only appends, so the head is unchanged. -/
theorem head?_padOptions {α : Type} [DecidableEq α] (pads : List α) :
    ∀ opts : List α, opts ≠ [] → (padOptions opts pads).head? = opts.head? := by
  induction pads with
  | nil => intro opts _; rfl
  | cons p ps ih =>
    intro opts hne
    unfold padOptions
    rw [List.foldl_cons]
    by_cases hp : p ∈ opts
    · rw [if_pos hp]; exact ih opts hne
    · rw [if_neg hp]
      have h1 := ih (opts ++ [p]) (by simp)
      unfold padOptions at h1
      rw [h1]
      cases opts with
      | nil => exact absurd rfl hne
      | cons a t => rfl


/-- Unfolding equation for `dedupFirst` on a cons cell. -/
theorem dedupFirst_cons {α : Type} [DecidableEq α] (x : α) (xs : List α) :
    dedupFirst (x :: xs) = x :: (dedupFirst xs).filter (fun y => decide (y ≠ x)) :=
  rfl

/-- With a stripped non-empty correct answer, the assembled pool is the
correct answer followed by deduplicated stripped distractors, optionally
padded. -/
theorem assembled_pool_eq (correct : PyStr) (distractors pads : List PyStr)
    (k : Nat) (htr : trimL correct = correct) (hne : correct ≠ []) :
    ∃ D : List PyStr, assembled_pool correct distractors pads k =
      (if (correct :: D).length < k then padOptions (correct :: D) pads
       else (correct :: D)) := by
  refine ⟨(dedupFirst ((((distractors.filter
      (fun d => decide (d ≠ [] ∧ d ≠ correct))).filter
        (fun o => decide (trimL o ≠ []))).map trimL))).filter
          (fun y => decide (y ≠ correct)), ?_⟩
  have hcond : decide (trimL correct ≠ []) = true := by simp [htr, hne]
  have hd : ((correct :: distractors.filter
        (fun d => decide (d ≠ [] ∧ d ≠ correct))).filter
          (fun o => decide (trimL o ≠ []))).map trimL
      = correct :: ((distractors.filter
        (fun d => decide (d ≠ [] ∧ d ≠ correct))).filter
          (fun o => decide (trimL o ≠ []))).map trimL := by
    rw [List.filter_cons, if_pos hcond, List.map_cons, htr]
  simp only [assembled_pool]
  rw [hd, dedupFirst_cons]

/-- With a stripped non-empty correct answer, the assembled pool starts
with the correct answer. -/
theorem assembled_pool_head (correct : PyStr) (distractors pads : List PyStr)
    (k : Nat) (htr : trimL correct = correct) (hne : correct ≠ []) :
    (assembled_pool correct distractors pads k).head? = some correct := by
  rcases assembled_pool_eq correct distractors pads k htr hne with ⟨D, hD⟩
  rw [hD]
  split
  · rw [head?_padOptions _ _ (by simp)]
    rfl
  · rfl

/-- The assembled pool never contains duplicates. -/
theorem assembled_pool_nodup (correct : PyStr) (distractors pads : List PyStr)
    (k : Nat) : (assembled_pool correct distractors pads k).Nodup := by
  simp only [assembled_pool]
  split
  · exact nodup_padOptions _ _ (nodup_dedupFirst _)
  · exact nodup_dedupFirst _

/-- What `assemble_options` guarantees about its output when the correct
answer is already stripped and non-empty: the correct answer still leads,
the options are duplicate-free, and their number lies between 2 and 4. -/
theorem assemble_options_sound (correct : PyStr) (distractors pads : List PyStr)
    (htr : trimL correct = correct) (hne : correct ≠ []) (opts : List PyStr)
    (h : assemble_options correct distractors pads 4 = some opts) :
    opts.head? = some correct ∧ opts.Nodup ∧ 2 ≤ opts.length ∧ opts.length ≤ 4 := by
  unfold assemble_options at h
  by_cases hlt : (assembled_pool correct distractors pads 4).length < 2
  · rw [if_pos hlt] at h
    exact absurd h (by simp)
  · rw [if_neg hlt] at h
    have hopts : opts = (assembled_pool correct distractors pads 4).take 4 :=
      (Option.some.inj h).symm
    have hph := assembled_pool_head correct distractors pads 4 htr hne
    refine ⟨?_, ?_, ?_, ?_⟩
    · cases hp : assembled_pool correct distractors pads 4 with
      | nil => rw [hp] at hph; simp at hph
      | cons a t =>
        rw [hp] at hph
        simp at hph
        rw [hopts, hp, hph]
        rfl
    · rw [hopts]
      exact (List.take_sublist 4 _).nodup (assembled_pool_nodup correct distractors pads 4)
    · rw [hopts, List.length_take]
      omega
    · rw [hopts, List.length_take]
      omega

/-- In a duplicate-free list every member occurs exactly once. -/
theorem count_eq_one_of_nodup_mem {α : Type} [BEq α] [LawfulBEq α]
    (l : List α) (c : α) (hnd : l.Nodup) (hmem : c ∈ l) : l.count c = 1 := by
  induction l with
  | nil => simp at hmem
  | cons a t ih =>
    rcases List.mem_cons.mp hmem with rfl | hmem'
    · rw [List.count_cons_self, List.count_eq_zero_of_not_mem (List.nodup_cons.mp hnd).1]
    · have hne : c ≠ a := by
        rintro rfl
        exact (List.nodup_cons.mp hnd).1 hmem'
      rw [List.count_cons_of_ne hne]
      exact ih (List.nodup_cons.mp hnd).2 hmem'

/-- `list.index(c)` points at an occurrence of `c` whenever `c` is present
(Python raises otherwise; every call site proves membership). -/
theorem getElem?_indexOf_of_mem {α : Type} [BEq α] [LawfulBEq α]
    (l : List α) (c : α) (hmem : c ∈ l) : l[l.indexOf c]? = some c := by
  induction l with
  | nil => simp at hmem
  | cons a t ih =>
    by_cases hac : a = c
    · subst hac
      simp [List.indexOf, List.findIdx_cons]
    · have hmem' : c ∈ t := by
        rcases List.mem_cons.mp hmem with rfl | h
        · exact absurd rfl hac
        · exact h
      have hbeq : (a == c) = false := by simp [hac]
      simp only [List.indexOf, List.findIdx_cons, hbeq, cond_false]
      rw [List.getElem?_cons_succ]
      simpa [List.indexOf] using ih hmem'

/-- Every correct answer `build_question` selects is already stripped. -/
theorem correctOf_trimmed (r : VocabRow) (choiceFn : List PyStr → PyStr)
    (tt : String) (c : PyStr) (h : correctOf r choiceFn tt = some c) :
    trimL c = c := by
  unfold correctOf at h
  simp only [correct_and_prompt] at h
  split_ifs at h <;> simp at h <;> rw [← h] <;> exact trimL_trimL _

/-- C7.  For every vocab row, category and random draws — provided the
shuffle is a permutation and the selected correct answer is non-empty (true
of every store populated through `DB.add_word`, which strips values and
drops empties) — `build_question` with `k_options = 4` either returns
`none`, or returns a question whose option list has between 2 and 4
entries, no duplicates, contains the correct answer exactly once, with
`correct_idx` pointing at it after shuffling; and with a selected correct
answer it returns `none` exactly when the assembled distinct option pool
has fewer than 2 entries. -/
theorem build_question_options_sound (r : VocabRow)
    (choiceFn : List PyStr → PyStr) (distractors pads : List PyStr)
    (shuffleFn : List PyStr → List PyStr) (tt : String)
    (hshuf : ∀ l, (shuffleFn l).Perm l)
    (hc : ∀ c, correctOf r choiceFn tt = some c → c ≠ []) :
    (∀ q, build_question (some r) choiceFn distractors pads shuffleFn tt 4 = some q →
      2 ≤ q.options.length ∧ q.options.length ≤ 4 ∧ q.options.Nodup ∧
      ∃ c, correctOf r choiceFn tt = some c ∧ q.options.count c = 1 ∧
        q.options[q.correct_idx]? = some c) ∧
    (∀ c, correctOf r choiceFn tt = some c →
      ((assembled_pool c distractors pads 4).length < 2 ↔
        build_question (some r) choiceFn distractors pads shuffleFn tt 4 = none)) := by
  constructor
  · intro q hq
    cases hcp : correct_and_prompt r choiceFn tt with
    | none =>
      simp only [build_question, hcp] at hq
      exact Option.noConfusion hq
    | some cp =>
      obtain ⟨c0, pr⟩ := cp
      have hcor : correctOf r choiceFn tt = some c0 := by
        unfold correctOf
        rw [hcp]
        rfl
      have hcne := hc c0 hcor
      have htr : trimL c0 = c0 := correctOf_trimmed r choiceFn tt c0 hcor
      simp only [build_question, hcp] at hq
      cases hao : assemble_options c0 distractors pads 4 with
      | none =>
        simp only [hao] at hq
        exact Option.noConfusion hq
      | some opts =>
        simp only [hao] at hq
        have hqe := Option.some.inj hq
        subst hqe
        obtain ⟨hhead, hnodup, h2, h4⟩ :=
          assemble_options_sound c0 distractors pads htr hcne opts hao
        have hperm := hshuf opts
        have hmemopts : c0 ∈ opts := by
          cases opts with
          | nil => simp at hhead
          | cons a t =>
            simp at hhead
            rw [hhead]
            exact List.mem_cons_self c0 t
        have hmem : c0 ∈ shuffleFn opts := hperm.mem_iff.mpr hmemopts
        have hnd : (shuffleFn opts).Nodup := hperm.nodup_iff.mpr hnodup
        have hlen : (shuffleFn opts).length = opts.length := hperm.length_eq
        refine ⟨?_, ?_, hnd, c0, hcor, ?_, ?_⟩
        · show 2 ≤ (shuffleFn opts).length
          rw [hlen]
          exact h2
        · show (shuffleFn opts).length ≤ 4
          rw [hlen]
          exact h4
        · exact count_eq_one_of_nodup_mem _ _ hnd hmem
        · exact getElem?_indexOf_of_mem _ _ hmem
  · intro c hcor
    cases hcp : correct_and_prompt r choiceFn tt with
    | none =>
      unfold correctOf at hcor
      rw [hcp] at hcor
      simp at hcor
    | some cp =>
      obtain ⟨c0, pr⟩ := cp
      have hc0 : c0 = c := by
        unfold correctOf at hcor
        rw [hcp] at hcor
        simpa using hcor
      subst hc0
      constructor
      · intro hlt
        simp only [build_question, hcp]
        have hnone : assemble_options c0 distractors pads 4 = none := by
          simp only [assemble_options]
          rw [if_pos hlt]
        rw [hnone]
      · intro hnone
        by_contra hge
        have hsome : assemble_options c0 distractors pads 4 =
            some ((assembled_pool c0 distractors pads 4).take 4) := by
          simp only [assemble_options]
          rw [if_neg hge]
        simp only [build_question, hcp, hsome] at hnone
        exact Option.noConfusion hnone

/-- Concrete vocab row used by the `build_question` witness. -/
def vocabRowCat : VocabRow :=
  { id := 1, word := strL "cat", definition := [], translation := strL "gato",
    synonyms := [], antonyms := [], example_ := [] }

/-- Concrete stand-in for `random.choice` used by the witness. -/
def choiceHead : List PyStr → PyStr := fun l => l.headD []

/-- Witness for `build_question_options_sound`: a TRANSLATE question for
`vocabRowCat` with three distractors and the identity shuffle. -/
theorem build_question_options_sound_witness :
    (∀ q, build_question (some vocabRowCat) choiceHead
        [strL "perro", strL "sol", strL "luna"] [] (fun l => l) "TRANSLATE" 4 = some q →
      2 ≤ q.options.length ∧ q.options.length ≤ 4 ∧ q.options.Nodup ∧
      ∃ c, correctOf vocabRowCat choiceHead "TRANSLATE" = some c ∧
        q.options.count c = 1 ∧ q.options[q.correct_idx]? = some c) ∧
    (∀ c, correctOf vocabRowCat choiceHead "TRANSLATE" = some c →
      ((assembled_pool c [strL "perro", strL "sol", strL "luna"] [] 4).length < 2 ↔
        build_question (some vocabRowCat) choiceHead
          [strL "perro", strL "sol", strL "luna"] [] (fun l => l) "TRANSLATE" 4 = none)) :=
  build_question_options_sound vocabRowCat choiceHead
    [strL "perro", strL "sol", strL "luna"] [] (fun l => l) "TRANSLATE"
    (fun l => List.Perm.refl l)
    (fun c h => by
      have h3 : correctOf vocabRowCat choiceHead "TRANSLATE" = some (strL "gato") := by
        decide
      rw [h3] at h
      have h4 := Option.some.inj h
      rw [← h4]
      decide)
